import Mathlib

/-!
# PiPredict escrow-and-settlement engine: shallow embedding

Shallow embedding of `src/server.js` (Express/Mongoose server for pooled-stake
prediction challenges).  JavaScript numbers used for money are modelled as
exact rationals (`ℚ`); Mongoose documents are Lean structures; the two
collections (`User`, `Match`) are lists of documents, `findOne` is
`List.find?` and `save` replaces the stored document with the same unique id.
External HTTP fetches of final scores (NBA API / football API) are modelled by
passing the fetched pair of scores as an explicit argument.  A JavaScript
`Date` is modelled as a millisecond timestamp (`ℕ`).
-/

/-- One element of `MatchSchema.entries`: a user's stake against a match.
`prediction` is an arbitrary string (the handler performs no validation). -/
structure Entry where
  userId : String
  prediction : String
  entryFee : ℚ
deriving DecidableEq, Repr

/-- `UserSchema`: uid (unique), username, demo Pi balance, premium flag and
expiry, win counter, referral counter, unredeemed discount codes. -/
structure User where
  uid : String
  username : String
  piBalance : ℚ
  isPremium : Bool
  premiumUntil : Option ℕ
  wins : ℕ
  referrals : ℕ
  discountCodes : List String
deriving DecidableEq, Repr

/-- `MatchSchema`: unique id from the external API, sport tag (`"nba"` or
`"football"`), team names, scheduled time, result (`"pending"` until settled,
then `"home"`, `"away"` or `"draw"`), accumulated pool, entry list. -/
structure Match where
  matchId : String
  sport : String
  home : String
  away : String
  date : ℕ
  result : String
  pool : ℚ
  entries : List Entry
deriving DecidableEq, Repr

/-- The whole persistent state: the two MongoDB collections. -/
structure DB where
  users : List User
  matchColl : List Match
deriving DecidableEq, Repr

/-- `User.findOne({ uid })`. -/
def findUser (db : DB) (uid : String) : Option User :=
  db.users.find? (fun u => u.uid == uid)

/-- `Match.findOne({ matchId })`. -/
def findMatch (db : DB) (mid : String) : Option Match :=
  db.matchColl.find? (fun m => m.matchId == mid)

/-- `user.save()`: replace the stored document with uid `u.uid` by `u`
(uids are unique, so at most one document is affected in reachable states). -/
def saveUser (users : List User) (u : User) : List User :=
  users.map (fun v => if v.uid == u.uid then u else v)

/-- `match.save()`: replace the stored document with matchId `m.matchId`. -/
def saveMatch (matchColl : List Match) (m : Match) : List Match :=
  matchColl.map (fun v => if v.matchId == m.matchId then m else v)

/-- Responses of the `POST /join-challenge` handler. -/
inductive JoinResult where
  /-- 403 `'Premium required'` (user missing or not premium). -/
  | premiumRequired
  /-- 400 `'Invalid match'` (match missing or already settled). -/
  | invalidMatch
  /-- 400 `'Insufficient balance'`. -/
  | insufficientBalance
  /-- `{ success: true, pool: match.pool }`. -/
  | success (pool : ℚ)
deriving DecidableEq, Repr

/-- `POST /join-challenge`: lines 84–109 of `server.js`.  Checks, in order:
user exists and is premium; match exists and `result === 'pending'`;
`piBalance >= entryFee`.  On success it debits the user, saves the user, adds
the fee to the pool, appends the entry and saves the match.  There is no
check that `prediction` is a valid outcome label, no duplicate-entry check and
no positivity check on `entryFee`. -/
def joinChallenge (db : DB) (userId matchId prediction : String) (entryFee : ℚ) :
    JoinResult × DB :=
  match findUser db userId with
  | none => (JoinResult.premiumRequired, db)
  | some user =>
    if !user.isPremium then (JoinResult.premiumRequired, db)
    else
      match findMatch db matchId with
      | none => (JoinResult.invalidMatch, db)
      | some m =>
        if m.result != "pending" then (JoinResult.invalidMatch, db)
        else if user.piBalance < entryFee then (JoinResult.insufficientBalance, db)
        else
          let user' := { user with piBalance := user.piBalance - entryFee }
          let db1 := { db with users := saveUser db.users user' }
          let m' := { m with pool := m.pool + entryFee,
                             entries := m.entries ++ [⟨userId, prediction, entryFee⟩] }
          (JoinResult.success m'.pool, { db1 with matchColl := saveMatch db1.matchColl m' })

/-- The pair of final scores fetched from the external sports API:
`(home_team_score, visitor_team_score)` for NBA, `(goals.home, goals.away)`
for football. -/
structure Scores where
  home : ℤ
  away : ℤ
deriving DecidableEq, Repr

/-- NBA branch of result fetching (line 122):
`game.home_team_score > game.visitor_team_score ? 'home' : 'away'` —
a tie yields `'away'`. -/
def nbaResult (homeScore visitorScore : ℤ) : String :=
  if homeScore > visitorScore then "home" else "away"

/-- Football branch of result fetching (lines 129–131). -/
def footballResult (goalsHome goalsAway : ℤ) : String :=
  if goalsHome > goalsAway then "home"
  else if goalsHome < goalsAway then "away"
  else "draw"

/-- The result string `settleMatch` derives from the fetched scores,
branching on the sport tag (lines 118–132). -/
def fetchResult (sport : String) (s : Scores) : String :=
  if sport == "nba" then nbaResult s.home s.away
  else footballResult s.home s.away

/-- Line 140: `const houseCut = match.pool * 0.1;` (10% commission, no
rounding). -/
def houseCut (pool : ℚ) : ℚ := pool * (1 / 10)

/-- Line 141: `const payoutPerWinner = (match.pool - houseCut) / winners.length;`
(exact division, no flooring to a smallest unit). -/
def payoutPerWinner (pool : ℚ) (winnerCount : ℕ) : ℚ :=
  (pool - houseCut pool) / winnerCount

/-- Lines 143–152, one iteration of the winners loop: look the winner's user
up, credit `payoutPerWinner`, increment the win counter, push the discount
code `WIN10_${user.wins}` built from the already-incremented counter, save. -/
def creditWinner (db : DB) (w : Entry) (payout : ℚ) : DB :=
  match findUser db w.userId with
  | none => db
  | some user =>
    let user' := { user with
      piBalance := user.piBalance + payout,
      wins := user.wins + 1,
      discountCodes := user.discountCodes ++ ["WIN10_" ++ toString (user.wins + 1)] }
    { db with users := saveUser db.users user' }

/-- The `for (let w of winners)` loop.  In JavaScript a missing user record
would throw a `TypeError` and abort the remaining iterations; this is
modelled by stopping the loop there (`creditWinner` then returns `db`
unchanged and the recursion stops). -/
def creditWinners (db : DB) (ws : List Entry) (payout : ℚ) : DB :=
  match ws with
  | [] => db
  | w :: rest =>
    match findUser db w.userId with
    | none => db
    | some user =>
      let user' := { user with
        piBalance := user.piBalance + payout,
        wins := user.wins + 1,
        discountCodes := user.discountCodes ++ ["WIN10_" ++ toString (user.wins + 1)] }
      creditWinners { db with users := saveUser db.users user' } rest payout

/-- Lines 134–154: store the fetched result, partition the winners, stop if
there are none (`// Pool to house? Optional`), otherwise credit each winner
`payoutPerWinner`.  Factored out of `settleMatch` for proof convenience. -/
def applySettlement (db : DB) (m : Match) (result : String) : DB :=
  let m' := { m with result := result }
  let db1 := { db with matchColl := saveMatch db.matchColl m' }
  let winners := m.entries.filter (fun e => e.prediction == result)
  if winners.length = 0 then db1
  else creditWinners db1 winners (payoutPerWinner m.pool winners.length)

/-- `settleMatch(matchId)`, lines 112–155.  Early-returns when
`match.result !== 'pending'`; otherwise fetches the result (modelled by the
`Scores` argument), stores it and credits the winners.  A missing match would
throw before any mutation, modelled as returning `db` unchanged. -/
def settleMatch (db : DB) (matchId : String) (s : Scores) : DB :=
  match findMatch db matchId with
  | none => db
  | some m =>
    if m.result != "pending" then db
    else applySettlement db m (fetchResult m.sport s)

/-- Responses of the `POST /subscribe` handler. -/
inductive SubResult where
  /-- 404 `'User not found'`. -/
  | userNotFound
  /-- 400 `'Insufficient balance'`. -/
  | insufficientBalance
  /-- `{ success: true, premiumUntil }`. -/
  | success (premiumUntil : ℕ)
deriving DecidableEq, Repr

/-- `discountCode.startsWith('WIN10_')`, computed on the character list (the
same predicate as `String.startsWith`, in a form the kernel evaluates). -/
def isWin10Code (c : String) : Bool :=
  "WIN10_".data.isPrefixOf c.data

/-- Line 167: the subscription price is 0.45 instead of 0.5 whenever the
supplied code starts with `'WIN10_'` — ownership and prior use are never
checked. -/
def subAmount (discountCode : Option String) : ℚ :=
  match discountCode with
  | some c => if isWin10Code c then 45 / 100 else 1 / 2
  | none => 1 / 2

/-- `POST /subscribe`, lines 164–187.  Debits `subAmount`, sets the premium
flag and a 30-day expiry, and (when a code was supplied) removes every
occurrence of that code from the user's list.  The empty string is falsy in
JavaScript, so an absent or empty code is modelled as `none`. -/
def subscribe (db : DB) (userId : String) (discountCode : Option String)
    (now : ℕ) : SubResult × DB :=
  let amount := subAmount discountCode
  match findUser db userId with
  | none => (SubResult.userNotFound, db)
  | some user =>
    if user.piBalance < amount then (SubResult.insufficientBalance, db)
    else
      let codes := match discountCode with
        | some c => user.discountCodes.filter (fun x => x != c)
        | none => user.discountCodes
      let user' := { user with
        piBalance := user.piBalance - amount,
        isPremium := true,
        premiumUntil := some (now + 30 * 24 * 60 * 60 * 1000),
        discountCodes := codes }
      (SubResult.success (now + 30 * 24 * 60 * 60 * 1000),
       { db with users := saveUser db.users user' })

/-- One request to `POST /join-challenge`, for replaying sequences of joins. -/
structure JoinReq where
  userId : String
  matchId : String
  prediction : String
  entryFee : ℚ
deriving DecidableEq, Repr

/-- Replay a sequence of join requests against the state. -/
def runJoins (db : DB) (reqs : List JoinReq) : DB :=
  reqs.foldl (fun d r => (joinChallenge d r.userId r.matchId r.prediction r.entryFee).2) db

/-- No user's spendable balance is negative. -/
def balancesNonneg (db : DB) : Prop :=
  ∀ u ∈ db.users, 0 ≤ u.piBalance

/-- Every match's pool equals the sum of the entry fees it records. -/
def poolInvariant (db : DB) : Prop :=
  ∀ m ∈ db.matchColl, m.pool = (m.entries.map (fun e => e.entryFee)).sum

instance (db : DB) : Decidable (balancesNonneg db) := by
  unfold balancesNonneg; infer_instance

instance (db : DB) : Decidable (poolInvariant db) := by
  unfold poolInvariant; infer_instance

/-- The per-winner payout rule the specification states (for comparison with
the code's `payoutPerWinner`): `floor(distributable / winnerCount)` taken to
the ledger's smallest unit, here 0.01. -/
def specPayoutPerWinner (total hCut : ℚ) (winnerCount : ℕ) : ℚ :=
  (⌊(total - hCut) / winnerCount * 100⌋ : ℤ) / 100

/-! ## Helper lemmas -/

/-- `find?` after a map that replaces every element satisfying `p` by a fixed
element `w` that itself satisfies `p`. -/
theorem find?_map_update {α : Type} (l : List α) (p : α → Bool) (w : α) (hw : p w = true) :
    (l.map (fun v => if p v then w else v)).find? p = (l.find? p).map (fun _ => w) := by
  induction l with
  | nil => rfl
  | cons x xs ih =>
    simp only [List.map_cons]
    by_cases hx : p x = true
    · rw [if_pos hx, List.find?_cons_of_pos _ hw, List.find?_cons_of_pos _ hx]
      rfl
    · rw [if_neg hx, List.find?_cons_of_neg _ hx, List.find?_cons_of_neg _ hx, ih]

/-- `find?` by key after a keyed save: the saved document is found. -/
theorem find?_save {α : Type} (l : List α) (key : α → String) (k : String) (x x' : α)
    (hfind : l.find? (fun v => key v == k) = some x) (hk : key x' = k) :
    (l.map (fun v => if key v == key x' then x' else v)).find? (fun v => key v == k) = some x' := by
  have hw : ((fun v => key v == k) x') = true := by simp [hk]
  rw [show (fun v => if key v == key x' then x' else v)
        = (fun v => if key v == k then x' else v) by rw [hk]]
  rw [find?_map_update l (fun v => key v == k) x' hw, hfind]
  rfl

/-- The winners loop only touches the `users` collection. -/
theorem creditWinners_matchColl (ws : List Entry) (db : DB) (payout : ℚ) :
    (creditWinners db ws payout).matchColl = db.matchColl := by
  induction ws generalizing db with
  | nil => rfl
  | cons w rest ih =>
    rw [creditWinners]
    cases h : findUser db w.userId with
    | none => rfl
    | some u => rw [ih]

/-- After `applySettlement` the match collection holds the match with the
result stored. -/
theorem applySettlement_matchColl (db : DB) (m : Match) (r : String) :
    (applySettlement db m r).matchColl = saveMatch db.matchColl { m with result := r } := by
  simp only [applySettlement]
  split
  · rfl
  · rw [creditWinners_matchColl]

/-- The fetched result is one of `"home"`, `"away"`, `"draw"`. -/
theorem fetchResult_cases (sport : String) (s : Scores) :
    fetchResult sport s = "home" ∨ fetchResult sport s = "away" ∨
      fetchResult sport s = "draw" := by
  unfold fetchResult nbaResult footballResult
  split_ifs <;> simp

/-- The fetched result is never the string `"pending"`. -/
theorem fetchResult_ne_pending (sport : String) (s : Scores) :
    fetchResult sport s ≠ "pending" := by
  rcases fetchResult_cases sport s with h | h | h <;> rw [h] <;> decide

/-- Whatever match `settleMatch` leaves stored under `mid`, its result is not
`"pending"`: either it was already settled, or the fetched result was just
stored. -/
theorem settleMatch_result_ne_pending (db : DB) (mid : String) (s : Scores) (m : Match)
    (h : findMatch (settleMatch db mid s) mid = some m) : m.result ≠ "pending" := by
  unfold settleMatch at h
  split at h
  · next heq => rw [heq] at h; simp at h
  · next m0 heq =>
    split at h
    · next hcond =>
      rw [heq] at h
      injection h with hm
      rw [← hm]
      simpa using hcond
    · next hcond =>
      have hmid : m0.matchId = mid := by simpa using List.find?_some heq
      have hfound : findMatch (applySettlement db m0 (fetchResult m0.sport s)) mid
          = some { m0 with result := fetchResult m0.sport s } := by
        show (applySettlement db m0 (fetchResult m0.sport s)).matchColl.find?
            (fun v => v.matchId == mid) = _
        rw [applySettlement_matchColl]
        exact find?_save db.matchColl Match.matchId mid m0 _ heq hmid
      rw [h] at hfound
      injection hfound with hm
      rw [hm]
      exact fetchResult_ne_pending m0.sport s

/-- `settleMatch` is a no-op when the stored match (if any) is not pending. -/
theorem settleMatch_eq_of_not_pending (db : DB) (mid : String) (s : Scores)
    (h : ∀ m, findMatch db mid = some m → m.result ≠ "pending") :
    settleMatch db mid s = db := by
  unfold settleMatch
  split
  · rfl
  · next m heq =>
    have hb : (m.result != "pending") = true := by simp [h m heq]
    simp [hb]

/-- With at least one winner, the house cut plus all the per-winner payouts
reconstruct the pool exactly: the division is exact, so no remainder exists. -/
theorem houseCut_add_payouts_eq (pool : ℚ) (n : ℕ) (hn : n ≠ 0) :
    houseCut pool + n * payoutPerWinner pool n = pool := by
  have h : (n : ℚ) ≠ 0 := Nat.cast_ne_zero.mpr hn
  unfold payoutPerWinner
  rw [mul_comm ((n : ℚ)) _, div_mul_cancel₀ _ h]
  ring

/-- Three premium users with balance 1 and a pending NBA match whose pool of
0.03 came from three 0.01 entries, all predicting `"home"`. -/
def centDB : DB :=
  ⟨[⟨"u1", "alice", 1, true, none, 0, 0, []⟩,
    ⟨"u2", "bob", 1, true, none, 0, 0, []⟩,
    ⟨"u3", "carol", 1, true, none, 0, 0, []⟩],
   [⟨"nba_1", "nba", "H", "A", 0, "pending", 3/100,
     [⟨"u1", "home", 1/100⟩, ⟨"u2", "home", 1/100⟩, ⟨"u3", "home", 1/100⟩]⟩]⟩

/-- Three premium users with balance 0 and a pending NBA match with pool
10.00 from three entries predicting `"home"` (the specification's scenario). -/
def scenarioDB : DB :=
  ⟨[⟨"u1", "alice", 0, true, none, 0, 0, []⟩,
    ⟨"u2", "bob", 0, true, none, 0, 0, []⟩,
    ⟨"u3", "carol", 0, true, none, 0, 0, []⟩],
   [⟨"nba_2", "nba", "H", "A", 0, "pending", 10,
     [⟨"u1", "home", 4⟩, ⟨"u2", "home", 3⟩, ⟨"u3", "home", 3⟩]⟩]⟩

/-! ## Claim theorems -/

/-- **C1**.  Settlement is idempotent: a second `settleMatch` call on the same
match (with any fetched scores) leaves the state exactly as the first call
left it — no winner is credited again, no win counter incremented, no new
reward code issued, the stored outcome is unchanged. -/
theorem C1_settle_idempotent (db : DB) (mid : String) (s s' : Scores) :
    settleMatch (settleMatch db mid s) mid s' = settleMatch db mid s :=
  settleMatch_eq_of_not_pending _ mid s' (fun m hm =>
    settleMatch_result_ne_pending db mid s m hm)

/-- **C2**, counterexample.  The code does not floor the per-winner payout to
the ledger's smallest unit: with a 0.03 pool and three winners it credits
each winner exactly 0.009, which is not a whole number of hundredths at all,
while the claim's rule `floor((total - houseCut)/count)` at 0.01 granularity
would pay 0. -/
theorem C2_counterexample :
    ((settleMatch centDB "nba_1" ⟨2, 1⟩).users.map (fun u => u.piBalance)
        = [1 + 9/1000, 1 + 9/1000, 1 + 9/1000]) ∧
    specPayoutPerWinner (3/100) (houseCut (3/100)) 3 = 0 ∧
    (1 + 9/1000 : ℚ) ≠ 1 + 0 ∧
    ¬ ∃ k : ℤ, (9/1000 : ℚ) = k / 100 := by
  refine ⟨?_, ?_, by norm_num, ?_⟩
  · simp [settleMatch, findMatch, centDB, applySettlement, saveMatch, creditWinners,
      findUser, saveUser, fetchResult, nbaResult, payoutPerWinner, houseCut]
    norm_num
  · simp [specPayoutPerWinner, houseCut]
    norm_num [Int.floor_eq_zero_iff]
  · rintro ⟨k, hk⟩
    rw [div_eq_div_iff (by norm_num) (by norm_num)] at hk
    have hk' : (900 : ℤ) = k * 1000 := by exact_mod_cast hk
    omega

/-- **C2** (amended).  The per-winner payout is the exact quotient
`(pool - houseCut) / winnerCount` with no flooring to a smallest unit and no
remainder — the house cut plus all payouts reconstruct the pool exactly; in
particular, for pool total 10.00, 10% commission and three winners, each
winner is credited exactly 3.00. -/
theorem C2_amended :
    (∀ (pool : ℚ) (n : ℕ), n ≠ 0 →
        houseCut pool + n * payoutPerWinner pool n = pool) ∧
    ((settleMatch scenarioDB "nba_2" ⟨2, 1⟩).users.map (fun u => u.piBalance)
        = [3, 3, 3]) ∧
    payoutPerWinner 10 3 = 3 ∧ houseCut 10 = 1 := by
  refine ⟨fun pool n hn => houseCut_add_payouts_eq pool n hn, ?_,
    by norm_num [payoutPerWinner, houseCut], by norm_num [houseCut]⟩
  simp [settleMatch, findMatch, scenarioDB, applySettlement, saveMatch, creditWinners,
    findUser, saveUser, fetchResult, nbaResult, payoutPerWinner, houseCut]
  norm_num

/-- Witness for C2 (amended): house cut plus payouts reconstruct the 10.00
pool exactly with three winners. -/
theorem C2_amended_witness :
    houseCut 10 + (3 : ℕ) * payoutPerWinner 10 3 = 10 :=
  C2_amended.1 10 3 (by norm_num)

/-- **C3**.  For every nonnegative pool and every winner count, the house cut
plus the sum of all per-winner payouts never exceeds the pool total (with at
least one winner it equals it exactly; with zero winners nothing is paid
out). -/
theorem C3_houseCut_add_payouts_le (pool : ℚ) (hpool : 0 ≤ pool) (n : ℕ) :
    houseCut pool + n * payoutPerWinner pool n ≤ pool := by
  rcases Nat.eq_zero_or_pos n with hn | hn
  · subst hn
    simp only [Nat.cast_zero, zero_mul, add_zero]
    unfold houseCut
    linarith
  · exact le_of_eq (houseCut_add_payouts_eq pool n (Nat.pos_iff_ne_zero.mp hn))

/-- Witness for C3 at pool 7 with zero winners. -/
theorem C3_witness : houseCut 7 + (0 : ℕ) * payoutPerWinner 7 0 ≤ 7 :=
  C3_houseCut_add_payouts_le 7 (by norm_num) 0

/-- Complete case analysis of the join handler: it either rejects and leaves
the state untouched, or all three checks passed and it debits the user and
appends the entry. -/
theorem joinChallenge_cases (db : DB) (uid mid pred : String) (fee : ℚ) :
    (joinChallenge db uid mid pred fee).2 = db ∨
    ∃ user m, findUser db uid = some user ∧ user.isPremium = true ∧
      findMatch db mid = some m ∧ m.result = "pending" ∧ ¬ user.piBalance < fee ∧
      joinChallenge db uid mid pred fee =
        (JoinResult.success (m.pool + fee),
         ⟨saveUser db.users { user with piBalance := user.piBalance - fee },
          saveMatch db.matchColl
            { m with pool := m.pool + fee,
                     entries := m.entries ++ [⟨uid, pred, fee⟩] }⟩) := by
  unfold joinChallenge
  split
  · exact Or.inl rfl
  · next user huser =>
    split
    · exact Or.inl rfl
    · next hprem =>
      split
      · exact Or.inl rfl
      · next m hm =>
        split
        · exact Or.inl rfl
        · next hres =>
          split
          · exact Or.inl rfl
          · next hbal =>
            refine Or.inr ⟨user, m, huser, ?_, hm, ?_, hbal, rfl⟩
            · simpa using hprem
            · simpa using hres

/-- One join call preserves both ledger invariants. -/
theorem joinChallenge_preserves (db : DB) (uid mid pred : String) (fee : ℚ)
    (h1 : balancesNonneg db) (h2 : poolInvariant db) :
    balancesNonneg (joinChallenge db uid mid pred fee).2 ∧
      poolInvariant (joinChallenge db uid mid pred fee).2 := by
  rcases joinChallenge_cases db uid mid pred fee with h | ⟨user, m, hu, _, hm, _, hb, heq⟩
  · rw [h]; exact ⟨h1, h2⟩
  · rw [show (joinChallenge db uid mid pred fee).2 = _ from congrArg Prod.snd heq]
    constructor
    · intro v hv
      rcases List.mem_map.mp hv with ⟨x, hx, hxv⟩
      by_cases hrep : (x.uid == user.uid) = true
      · rw [if_pos hrep] at hxv
        rw [← hxv]
        have : fee ≤ user.piBalance := not_lt.mp hb
        simpa using by linarith
      · rw [if_neg hrep] at hxv
        rw [← hxv]
        exact h1 x hx
    · intro v hv
      rcases List.mem_map.mp hv with ⟨x, hx, hxv⟩
      by_cases hrep : (x.matchId == m.matchId) = true
      · rw [if_pos hrep] at hxv
        rw [← hxv]
        have hmem : m ∈ db.matchColl := List.mem_of_find?_eq_some hm
        have := h2 m hmem
        simp [List.sum_append, this]
      · rw [if_neg hrep] at hxv
        rw [← hxv]
        exact h2 x hx

/-- **C4**.  For every sequence of join calls from a state where no balance is
negative and every pool equals the sum of its recorded entry fees, both
invariants still hold after the whole sequence (hence after every prefix):
no user's balance ever goes negative and the stake total always equals the
exact sum of the entry fees recorded. -/
theorem C4_join_invariants (db : DB) (reqs : List JoinReq)
    (h1 : balancesNonneg db) (h2 : poolInvariant db) :
    balancesNonneg (runJoins db reqs) ∧ poolInvariant (runJoins db reqs) := by
  induction reqs generalizing db with
  | nil => exact ⟨h1, h2⟩
  | cons r rest ih =>
    have step := joinChallenge_preserves db r.userId r.matchId r.prediction r.entryFee h1 h2
    exact ih _ step.1 step.2

/-- Witness for C4: a concrete user with balance 5 joining a pending match
twice and a missing match once. -/
theorem C4_witness :
    balancesNonneg (runJoins
        ⟨[⟨"u", "dana", 5, true, none, 0, 0, []⟩],
         [⟨"fb_1", "football", "H", "A", 0, "pending", 0, []⟩]⟩
        [⟨"u", "fb_1", "home", 1⟩, ⟨"u", "fb_1", "away", 2⟩, ⟨"u", "nope", "home", 1⟩]) ∧
      poolInvariant (runJoins
        ⟨[⟨"u", "dana", 5, true, none, 0, 0, []⟩],
         [⟨"fb_1", "football", "H", "A", 0, "pending", 0, []⟩]⟩
        [⟨"u", "fb_1", "home", 1⟩, ⟨"u", "fb_1", "away", 2⟩, ⟨"u", "nope", "home", 1⟩]) :=
  C4_join_invariants _ _ (by decide) (by decide)

/-- A premium user with balance 1 and one pending football match with no
entries. -/
def freshDB : DB :=
  ⟨[⟨"u", "erin", 1, true, none, 0, 0, []⟩],
   [⟨"fb_1", "football", "H", "A", 0, "pending", 0, []⟩]⟩

/-- **C5**, counterexample.  The handler never validates the prediction: the
label `"banana"`, which is none of the pool's valid outcome labels, is
admitted — the claim's `PredictionInvalid` rejection with no side effects
does not exist, and the entry is recorded with the balance debited. -/
theorem C5_counterexample :
    (joinChallenge freshDB "u" "fb_1" "banana" 1).1 = JoinResult.success 1 ∧
    ((joinChallenge freshDB "u" "fb_1" "banana" 1).2.matchColl.map Match.entries)
        = [[⟨"u", "banana", 1⟩]] ∧
    ((joinChallenge freshDB "u" "fb_1" "banana" 1).2.users.map (fun u => u.piBalance))
        = [0] ∧
    "banana" ≠ "home" ∧ "banana" ≠ "away" ∧ "banana" ≠ "draw" := by
  refine ⟨?_, ?_, ?_, by decide, by decide, by decide⟩ <;>
    simp [joinChallenge, findUser, findMatch, freshDB, saveUser, saveMatch]

/-- **C5** (amended).  The handler checks, in order: the caller exists and is
premium (else `premiumRequired`, i.e. eligibility is checked *first*, before
the pool is even looked up); the match exists and is pending (one conflated
`invalidMatch` error); `fee ≤ balance` (else `insufficientBalance`).  Each
failed check returns with the state untouched.  There is no
prediction-validity check and no duplicate-entry check: once the three
checks pass, any prediction string is admitted. -/
theorem C5_amended (db : DB) (uid mid pred : String) (fee : ℚ) :
    (findUser db uid = none →
        joinChallenge db uid mid pred fee = (JoinResult.premiumRequired, db)) ∧
    (∀ u, findUser db uid = some u → u.isPremium = false →
        joinChallenge db uid mid pred fee = (JoinResult.premiumRequired, db)) ∧
    (∀ u, findUser db uid = some u → u.isPremium = true → findMatch db mid = none →
        joinChallenge db uid mid pred fee = (JoinResult.invalidMatch, db)) ∧
    (∀ u m, findUser db uid = some u → u.isPremium = true → findMatch db mid = some m →
        m.result ≠ "pending" →
        joinChallenge db uid mid pred fee = (JoinResult.invalidMatch, db)) ∧
    (∀ u m, findUser db uid = some u → u.isPremium = true → findMatch db mid = some m →
        m.result = "pending" → u.piBalance < fee →
        joinChallenge db uid mid pred fee = (JoinResult.insufficientBalance, db)) ∧
    (∀ u m, findUser db uid = some u → u.isPremium = true → findMatch db mid = some m →
        m.result = "pending" → ¬ u.piBalance < fee →
        (joinChallenge db uid mid pred fee).1 = JoinResult.success (m.pool + fee)) := by
  refine ⟨?_, ?_, ?_, ?_, ?_, ?_⟩
  · intro h
    simp [joinChallenge, h]
  · intro u hu hp
    simp [joinChallenge, hu, hp]
  · intro u hu hp hm
    simp [joinChallenge, hu, hp, hm]
  · intro u m hu hp hm hr
    simp [joinChallenge, hu, hp, hm, hr]
  · intro u m hu hp hm hr hb
    simp [joinChallenge, hu, hp, hm, hr, hb]
  · intro u m hu hp hm hr hb
    simp [joinChallenge, hu, hp, hm, hr, hb]

/-- A non-premium user, and no matches at all. -/
def nonPremiumUser : User := ⟨"u", "gil", 1, false, none, 0, 0, []⟩

/-- State holding only `nonPremiumUser`. -/
def nonPremiumDB : DB := ⟨[nonPremiumUser], []⟩

/-- Witness for C5 (amended): a non-premium caller joining a *nonexistent*
match is answered `premiumRequired` — eligibility is checked before pool
existence, unlike the claimed order. -/
theorem C5_amended_witness :
    joinChallenge nonPremiumDB "u" "nope" "home" 1 =
      (JoinResult.premiumRequired, nonPremiumDB) :=
  (C5_amended nonPremiumDB "u" "nope" "home" 1).2.1 nonPremiumUser (by decide) (by decide)

/-- When no entry predicted the outcome, the winners loop never runs and the
user collection is untouched. -/
theorem applySettlement_users_of_no_winners (db : DB) (m : Match) (r : String)
    (hw : m.entries.filter (fun e => e.prediction == r) = []) :
    (applySettlement db m r).users = db.users := by
  simp only [applySettlement, hw]
  rfl

/-- When the stored match is pending, `settleMatch` runs the settlement on
the fetched result. -/
theorem settleMatch_eq_applySettlement (db : DB) (mid : String) (s : Scores) (m : Match)
    (hm : findMatch db mid = some m) (hp : m.result = "pending") :
    settleMatch db mid s = applySettlement db m (fetchResult m.sport s) := by
  simp [settleMatch, hm, hp]

/-- **C6**.  If the resolved outcome matches no entry's prediction, settlement
credits no user (balances, win counters and reward codes all unchanged, so
the whole pool stays with the house), yet the match still transitions out of
`"pending"`: its stored result becomes the fetched outcome. -/
theorem C6_zero_winners (db : DB) (mid : String) (s : Scores) (m : Match)
    (hm : findMatch db mid = some m) (hp : m.result = "pending")
    (hw : m.entries.filter (fun e => e.prediction == fetchResult m.sport s) = []) :
    (settleMatch db mid s).users = db.users ∧
    (settleMatch db mid s).matchColl =
      saveMatch db.matchColl { m with result := fetchResult m.sport s } ∧
    fetchResult m.sport s ≠ "pending" := by
  have hset := settleMatch_eq_applySettlement db mid s m hm hp
  refine ⟨?_, ?_, fetchResult_ne_pending m.sport s⟩
  · rw [hset]
    exact applySettlement_users_of_no_winners db m _ hw
  · rw [hset]
    exact applySettlement_matchColl db m _

/-- A premium user whose only entry predicts `"home"` on a pending NBA match
the away team will win. -/
def loserDB : DB :=
  ⟨[⟨"u", "hal", 0, true, none, 0, 0, []⟩],
   [⟨"nba_3", "nba", "H", "A", 0, "pending", 2, [⟨"u", "home", 2⟩]⟩]⟩

/-- Witness for C6: the away team wins 2–1, nobody predicted `"away"`, no
user is credited and the match's result is stored. -/
theorem C6_witness :
    (settleMatch loserDB "nba_3" ⟨1, 2⟩).users = loserDB.users ∧
    (settleMatch loserDB "nba_3" ⟨1, 2⟩).matchColl =
      saveMatch loserDB.matchColl
        ⟨"nba_3", "nba", "H", "A", 0, fetchResult "nba" ⟨1, 2⟩, 2, [⟨"u", "home", 2⟩]⟩ ∧
    fetchResult "nba" ⟨1, 2⟩ ≠ "pending" :=
  C6_zero_winners loserDB "nba_3" ⟨1, 2⟩
    ⟨"nba_3", "nba", "H", "A", 0, "pending", 2, [⟨"u", "home", 2⟩]⟩
    (by decide) (by decide) (by decide)

/-- A premium user with balance 5 and one pending football match with no
entries, for replaying the same join twice. -/
def dupDB : DB :=
  ⟨[⟨"u", "ian", 5, true, none, 0, 0, []⟩],
   [⟨"fb_1", "football", "H", "A", 0, "pending", 0, []⟩]⟩

/-- **C7**, counterexample.  There is no duplicate-entry guard: the same user
joins the same pending pool twice, the second join also succeeds (no
`DuplicateEntry` error) and the pool ends up holding two entries for that
user. -/
theorem C7_counterexample :
    (joinChallenge (joinChallenge dupDB "u" "fb_1" "home" 1).2 "u" "fb_1" "home" 1).1
        = JoinResult.success 2 ∧
    ((joinChallenge (joinChallenge dupDB "u" "fb_1" "home" 1).2 "u" "fb_1" "home" 1).2.matchColl.map
        (fun m => (m.entries.filter (fun e => e.userId == "u")).length)) = [2] := by
  constructor <;>
    · simp [joinChallenge, findUser, findMatch, dupDB, saveUser, saveMatch]
      norm_num

/-- **C7** (amended).  The handler admits a join whenever the user is premium,
the match is pending and the fee is covered — regardless of whether the user
already holds an entry in that pool: the new entry is simply appended, so a
user can hold several entries per pool and no `DuplicateEntry` rejection
exists. -/
theorem C7_amended (db : DB) (uid mid pred : String) (fee : ℚ) (u : User) (m : Match)
    (hu : findUser db uid = some u) (hprem : u.isPremium = true)
    (hm : findMatch db mid = some m) (hp : m.result = "pending")
    (hb : ¬ u.piBalance < fee) :
    (joinChallenge db uid mid pred fee).1 = JoinResult.success (m.pool + fee) ∧
    findMatch (joinChallenge db uid mid pred fee).2 mid =
      some { m with pool := m.pool + fee,
                    entries := m.entries ++ [⟨uid, pred, fee⟩] } := by
  have hmid : m.matchId = mid := by simpa using List.find?_some hm
  constructor
  · simp [joinChallenge, hu, hprem, hm, hp, hb]
  · have hsnd : (joinChallenge db uid mid pred fee).2
        = ⟨saveUser db.users { u with piBalance := u.piBalance - fee },
           saveMatch db.matchColl
             { m with pool := m.pool + fee, entries := m.entries ++ [⟨uid, pred, fee⟩] }⟩ := by
      simp [joinChallenge, hu, hprem, hm, hp, hb]
    rw [hsnd]
    exact find?_save db.matchColl Match.matchId mid m _ hm hmid

/-- A premium user who already holds a `"home"` entry in the pending pool. -/
def dupJoinedDB : DB :=
  ⟨[⟨"u", "ned", 5, true, none, 0, 0, []⟩],
   [⟨"fb_1", "football", "H", "A", 0, "pending", 1, [⟨"u", "home", 1⟩]⟩]⟩

/-- Witness for C7 (amended): the second identical join of an already-joined
user succeeds and appends a second entry for the same user. -/
theorem C7_amended_witness :
    (joinChallenge dupJoinedDB "u" "fb_1" "home" 1).1 = JoinResult.success (1 + 1) ∧
    findMatch (joinChallenge dupJoinedDB "u" "fb_1" "home" 1).2 "fb_1" =
      some ⟨"fb_1", "football", "H", "A", 0, "pending", 1 + 1,
            [⟨"u", "home", 1⟩, ⟨"u", "home", 1⟩]⟩ :=
  C7_amended dupJoinedDB "u" "fb_1" "home" 1
    ⟨"u", "ned", 5, true, none, 0, 0, []⟩
    ⟨"fb_1", "football", "H", "A", 0, "pending", 1, [⟨"u", "home", 1⟩]⟩
    (by decide) (by decide) (by decide) (by decide) (by decide)

/-- **C8**, counterexample.  No positivity check exists on the entry fee: a
join with fee −1 is admitted, the pool total becomes −1 and the caller's
balance *increases* from 1 to 2 — far from being rejected as `InvalidAmount`
with no side effects. -/
theorem C8_counterexample :
    (joinChallenge freshDB "u" "fb_1" "home" (-1)).1 = JoinResult.success (-1) ∧
    ((joinChallenge freshDB "u" "fb_1" "home" (-1)).2.users.map (fun u => u.piBalance))
        = [2] ∧
    ((joinChallenge freshDB "u" "fb_1" "home" (-1)).2.matchColl.map Match.pool)
        = [-1] := by
  refine ⟨?_, ?_, ?_⟩ <;>
    · simp [joinChallenge, findUser, findMatch, freshDB, saveUser, saveMatch]
      norm_num

/-- **C8** (amended).  A zero or negative fee passes every check the handler
has (it is at most the nonnegative balance), so the join succeeds: the entry
is recorded, the fee is added to the pool, and the balance is debited by the
nonpositive amount — i.e. it does not decrease. -/
theorem C8_amended (db : DB) (uid mid pred : String) (fee : ℚ) (u : User) (m : Match)
    (hu : findUser db uid = some u) (hprem : u.isPremium = true)
    (hm : findMatch db mid = some m) (hp : m.result = "pending")
    (hfee : fee ≤ 0) (hb0 : 0 ≤ u.piBalance) :
    (joinChallenge db uid mid pred fee).1 = JoinResult.success (m.pool + fee) ∧
    findUser (joinChallenge db uid mid pred fee).2 uid =
      some { u with piBalance := u.piBalance - fee } ∧
    u.piBalance ≤ u.piBalance - fee := by
  have hb : ¬ u.piBalance < fee := not_lt.mpr (le_trans hfee hb0)
  have huid : u.uid = uid := by simpa using List.find?_some hu
  refine ⟨?_, ?_, by linarith⟩
  · simp [joinChallenge, hu, hprem, hm, hp, hb]
  · have hsnd : (joinChallenge db uid mid pred fee).2
        = ⟨saveUser db.users { u with piBalance := u.piBalance - fee },
           saveMatch db.matchColl
             { m with pool := m.pool + fee, entries := m.entries ++ [⟨uid, pred, fee⟩] }⟩ := by
      simp [joinChallenge, hu, hprem, hm, hp, hb]
    rw [hsnd]
    exact find?_save db.users User.uid uid u _ hu huid

/-- Witness for C8 (amended): joining with fee −1 from balance 1 succeeds and
raises the balance to 2. -/
theorem C8_amended_witness :
    (joinChallenge freshDB "u" "fb_1" "away" (-1)).1 = JoinResult.success (0 + -1) ∧
    findUser (joinChallenge freshDB "u" "fb_1" "away" (-1)).2 "u" =
      some ⟨"u", "erin", 1 - -1, true, none, 0, 0, []⟩ ∧
    (1 : ℚ) ≤ 1 - -1 :=
  C8_amended freshDB "u" "fb_1" "away" (-1)
    ⟨"u", "erin", 1, true, none, 0, 0, []⟩
    ⟨"fb_1", "football", "H", "A", 0, "pending", 0, []⟩
    (by decide) (by decide) (by decide) (by decide) (by decide) (by decide)

/-- **C9**, counterexample.  Ownership and prior use of a discount code are
never checked: a user whose code list is empty subscribes with the code
`"WIN10_99"` they never owned, and the 10% discount is applied — they are
debited 0.45 instead of 0.5.  This falsifies "the discount is applied only
when the code belongs to that user". -/
theorem C9_counterexample :
    (freshDB.users.map (fun u => u.discountCodes)) = [[]] ∧
    (subscribe freshDB "u" (some "WIN10_99") 0).1 = SubResult.success 2592000000 ∧
    ((subscribe freshDB "u" (some "WIN10_99") 0).2.users.map (fun u => u.piBalance))
        = [11/20] := by
  refine ⟨by decide, ?_, ?_⟩ <;>
    · simp [subscribe, subAmount, isWin10Code, findUser, freshDB, saveUser]
      norm_num

/-- **C9** (amended).  The discount is applied whenever the supplied code
starts with `"WIN10_"`, regardless of whether the code belongs to the user or
was ever issued: the price becomes 0.45, the premium flag and expiry are set,
and every occurrence of the supplied string is removed from the user's code
list in the same update.  Nothing prevents the same code string from being
used again or by a non-owner. -/
theorem C9_amended (db : DB) (uid c : String) (now : ℕ) (u : User)
    (hu : findUser db uid = some u) (hc : isWin10Code c = true)
    (hb : ¬ u.piBalance < 45 / 100) :
    subscribe db uid (some c) now =
      (SubResult.success (now + 30 * 24 * 60 * 60 * 1000),
       ⟨saveUser db.users
          { u with piBalance := u.piBalance - 45 / 100, isPremium := true,
                   premiumUntil := some (now + 30 * 24 * 60 * 60 * 1000),
                   discountCodes := u.discountCodes.filter (fun x => x != c) },
        db.matchColl⟩) := by
  simp [subscribe, subAmount, hu, hc, hb]

/-- Witness for C9 (amended): the non-owner discount application at a
concrete state. -/
theorem C9_amended_witness :
    subscribe freshDB "u" (some "WIN10_99") 7 =
      (SubResult.success (7 + 30 * 24 * 60 * 60 * 1000),
       ⟨saveUser freshDB.users
          ⟨"u", "erin", 1 - 45 / 100, true, some (7 + 30 * 24 * 60 * 60 * 1000), 0, 0, []⟩,
        freshDB.matchColl⟩) :=
  C9_amended freshDB "u" "WIN10_99" 7 ⟨"u", "erin", 1, true, none, 0, 0, []⟩
    (by decide) (by decide) (by norm_num)

/-- **C10**.  Settling a pending NBA match always stores `"home"` or
`"away"`, never `"draw"`; when the fetched scores are equal the stored
outcome is `"away"`, and the winner set is then exactly the entries that
predicted `"away"` — a tied NBA game pays the `"away"` predictors. -/
theorem C10_nba_no_draw (db : DB) (mid : String) (s : Scores) (m : Match)
    (hm : findMatch db mid = some m) (hp : m.result = "pending") (hs : m.sport = "nba") :
    ∃ m', findMatch (settleMatch db mid s) mid = some m' ∧
      (m'.result = "home" ∨ m'.result = "away") ∧ m'.result ≠ "draw" ∧
      (s.home = s.away → m'.result = "away" ∧
        m.entries.filter (fun e => e.prediction == fetchResult m.sport s) =
          m.entries.filter (fun e => e.prediction == "away")) := by
  have hmid : m.matchId = mid := by simpa using List.find?_some hm
  have hset := settleMatch_eq_applySettlement db mid s m hm hp
  have hfr : fetchResult m.sport s = nbaResult s.home s.away := by
    simp [fetchResult, hs]
  refine ⟨{ m with result := fetchResult m.sport s }, ?_, ?_, ?_, ?_⟩
  · rw [hset]
    show (applySettlement db m (fetchResult m.sport s)).matchColl.find?
        (fun v => v.matchId == mid) = _
    rw [applySettlement_matchColl]
    exact find?_save db.matchColl Match.matchId mid m _ hm hmid
  · show fetchResult m.sport s = "home" ∨ fetchResult m.sport s = "away"
    rw [hfr]
    unfold nbaResult
    split
    · exact Or.inl rfl
    · exact Or.inr rfl
  · show fetchResult m.sport s ≠ "draw"
    rw [hfr]
    unfold nbaResult
    split
    · decide
    · decide
  · intro hts
    have haway : fetchResult m.sport s = "away" := by
      rw [hfr]
      unfold nbaResult
      rw [if_neg (by simp [hts])]
    exact ⟨haway, by rw [haway]⟩

/-- A premium user predicting `"away"` on a pending NBA match that will end
tied. -/
def tieDB : DB :=
  ⟨[⟨"u", "kim", 0, true, none, 0, 0, []⟩],
   [⟨"nba_9", "nba", "H", "A", 0, "pending", 1, [⟨"u", "away", 1⟩]⟩]⟩

/-- Witness for C10: the tied NBA game 3–3 settles to `"away"` and the
`"away"` entry is the winner set. -/
theorem C10_witness :
    ∃ m', findMatch (settleMatch tieDB "nba_9" ⟨3, 3⟩) "nba_9" = some m' ∧
      (m'.result = "home" ∨ m'.result = "away") ∧ m'.result ≠ "draw" ∧
      ((3 : ℤ) = 3 → m'.result = "away" ∧
        [Entry.mk "u" "away" 1].filter (fun e => e.prediction == fetchResult "nba" ⟨3, 3⟩) =
          [Entry.mk "u" "away" 1].filter (fun e => e.prediction == "away")) :=
  C10_nba_no_draw tieDB "nba_9" ⟨3, 3⟩
    ⟨"nba_9", "nba", "H", "A", 0, "pending", 1, [⟨"u", "away", 1⟩]⟩
    (by decide) (by decide) (by decide)
